import Mathlib

/-!
Shallow embedding of the FIT profile compiler / record decoder found in
choochoo/fit/profile.py, together with proofs that settle the frozen claims
about that code.  Byte strings are modelled as `List Nat` (each entry a byte
value), Python integers as `Int`/`Nat`, Python exceptions as an explicit
`PyErr` error type, and Python dynamic values as the `PyVal` sum.
-/

namespace Choochoo

/-- Endian constant LITTLE = 0 (profile.py line 16). -/
def LITTLE : Nat := 0

/-- Endian constant BIG = 1 (profile.py line 16). -/
def BIG : Nat := 1

/-- Little-endian byte list (length `n`) of a natural number, mirroring the
byte loop of StructSupport._pack_bad: byte i is (value >> 8*i) & 0xff. -/
def toLE : Nat → Nat → List Nat
  | 0, _ => []
  | n + 1, v => v % 256 :: toLE n (v / 256)

/-- Value of a little-endian byte list, as produced by struct.unpack. -/
def fromLE : List Nat → Nat
  | [] => 0
  | b :: bs => b + 256 * fromLE bs

/-- Python exceptions that the embedded code can raise. -/
inductive PyErr
  /-- KeyError (ErrorDict miss, or a plain dict miss). -/
  | keyError
  /-- TypeError (subscripting a MessageField; comparing None or a list with an int). -/
  | typeError
  /-- struct.error (buffer too short for the requested format). -/
  | structError
  /-- NotImplementedError from MessageField.raw_to_internal (dynamic field, no callback). -/
  | notImplementedError
  /-- Exception from the phrase No match for dynamic field (profile.py line 401). -/
  | noMatchError
  /-- UnicodeDecodeError from str(bytes, encoding=utf-8). -/
  | unicodeDecodeError
deriving DecidableEq, Repr

/-- Python runtime values produced by the decoders.  Python None is represented
as `Option.none` at use sites, not as a `PyVal` constructor.  The float
constructors carry the raw unsigned integer contents of the bytes; the IEEE-754
interpretation that Python's struct module performs is not modelled (floating
point), and no claim decodes a float. -/
inductive PyVal
  | int (n : Int)
  | intList (ns : List Int)
  | str (s : String)
  /-- datetime(1989, 12, 31, tzinfo) + timedelta(seconds=secs); `utc` records
  whether tzinfo was timezone.utc. -/
  | time (secs : Int) (utc : Bool)
  | float (bits : Nat)
  | floatList (bits : List Nat)
deriving DecidableEq, Repr

deriving instance DecidableEq for Except

/-- Civil-from-days style day count: days from 1970-01-01 to year/month/day in
the proleptic Gregorian calendar (the standard days_from_civil algorithm, used
to give concrete datetime values a decidable meaning). -/
def daysFromCivil (y m d : Int) : Int :=
  let y2 := if m ≤ 2 then y - 1 else y
  let era := (if 0 ≤ y2 then y2 else y2 - 399) / 400
  let yoe := y2 - era * 400
  let doy := (153 * (if 2 < m then m - 3 else m + 9) + 2) / 5 + d - 1
  let doe := yoe * 365 + yoe / 4 - yoe / 100 + doy
  era * 146097 + doe - 719468

/-- Inverse of `daysFromCivil`: (year, month, day) of a day count. -/
def civilFromDays (z0 : Int) : Int × Int × Int :=
  let z := z0 + 719468
  let era := (if 0 ≤ z then z else z - 146096) / 146097
  let doe := z - era * 146097
  let yoe := (doe - doe / 1460 + doe / 36524 - doe / 146096) / 365
  let y := yoe + era * 400
  let doy := doe - (365 * yoe + yoe / 4 - yoe / 100)
  let mp := (5 * doy + 2) / 153
  let d := doy - (153 * mp + 2) / 5 + 1
  let m := if mp < 10 then mp + 3 else mp - 9
  (if m ≤ 2 then y + 1 else y, m, d)

/-- Seconds between 1989-12-31T00:00:00 (the FIT epoch used by Date) and the
given civil datetime. -/
def fitSecs (y m d hh mi ss : Int) : Int :=
  (daysFromCivil y m d - daysFromCivil 1989 12 31) * 86400 + hh * 3600 + mi * 60 + ss

/-- Zero-padded two-digit rendering of a (small, nonnegative) integer, as in
Python's str(datetime). -/
def pad2 (n : Int) : String :=
  if n < 10 then "0" ++ toString n else toString n

/-- Python str() of an embedded value.  str of a datetime renders as
YYYY-MM-DD HH:MM:SS with a +00:00 suffix when the tzinfo is UTC.  The string
rendering of a Python float is not modelled (floating point); no claim
evaluates it. -/
def pyStr : PyVal → String
  | .int n => toString n
  | .intList ns => "[" ++ String.intercalate ", " (ns.map toString) ++ "]"
  | .str s => s
  | .time secs utc =>
      let total := daysFromCivil 1989 12 31 * 86400 + secs
      let day := total / 86400
      let tod := total % 86400
      let c := civilFromDays day
      toString c.1 ++ "-" ++ pad2 c.2.1 ++ "-" ++ pad2 c.2.2 ++ " " ++
        pad2 (tod / 3600) ++ ":" ++ pad2 (tod % 3600 / 60) ++ ":" ++ pad2 (tod % 60) ++
        (if utc then "+00:00" else "")
  | .float _ => "<float-not-modelled>"
  | .floatList _ => "<float-not-modelled>"

/-- Python str() applied to a value that may be None (str(None) is "None");
used on the unknown-field fallback path of Message.raw_to_internal. -/
def pyStrOpt : Option PyVal → String
  | none => "None"
  | some v => pyStr v

/-- StructSupport._pack_bad: the per-endian byte pattern of a bad value.  Index
LITTLE holds the little-endian bytes, index BIG the reverse. -/
def pack_bad (size value endian : Nat) : List Nat :=
  if endian = LITTLE then toLE size value else (toLE size value).reverse

/-- Slice i of the data (Python data[size*i : size*(i+1)]) equals the bad
pattern; helper for `is_bad`. -/
def sliceIsBad (data bad : List Nat) (i : Nat) : Bool :=
  (data.drop (bad.length * i)).take bad.length = bad

/-- StructSupport._is_bad: every size-byte slice of the data (count taken as
len(data) // size, ignoring any partial tail) equals the bad pattern. -/
def is_bad (data bad : List Nat) : Bool :=
  (List.range (data.length / bad.length)).all (sliceIsBad data bad)

/-- Value of one chunk as unpacked by struct: little-endian or big-endian byte
order, then a twos-complement adjustment for signed formats. -/
def chunkVal (signed : Bool) (size endian : Nat) (chunk : List Nat) : Int :=
  let u : Nat := if endian = LITTLE then fromLE chunk else fromLE chunk.reverse
  if signed && decide (2 ^ (8 * size - 1) ≤ u) then (u : Int) - 2 ^ (8 * size) else (u : Int)

/-- StructSupport._unpack for integer formats: bad-sentinel check first, then
struct.unpack of count fixed-width items from data[0 : count*size]; a scalar
when count == 1, otherwise a list.  struct raises when the buffer is shorter
than the format requires. -/
def unpackInt (signed : Bool) (size : Nat) (bad : Nat → List Nat) (count endian : Nat)
    (data : List Nat) : Except PyErr (Option PyVal) :=
  if is_bad data (bad endian) then .ok none
  else if data.length < count * size then .error .structError
  else
    let value := (List.range count).map fun i => chunkVal signed size endian ((data.drop (size * i)).take size)
    if count = 1 then .ok (some (.int (value.headD 0)))
    else .ok (some (.intList value))

/-- AutoInteger: parsed form of a type name matching ([su]?)int(bits)(z?).
The constructor guarantees bits is a multiple of 8 and size = bits/8 is one of
1, 2, 4, 8 (size_to_format); `valid` records that guarantee. -/
structure AutoInt where
  signed : Bool
  size : Nat
  zflag : Bool
deriving DecidableEq, Repr

/-- Bit width of an AutoInteger. -/
def AutoInt.bits (t : AutoInt) : Nat := 8 * t.size

/-- Sizes accepted by AutoInteger.size_to_format. -/
def AutoInt.valid (t : AutoInt) : Prop :=
  t.size = 1 ∨ t.size = 2 ∨ t.size = 4 ∨ t.size = 8

instance (t : AutoInt) : Decidable t.valid := by
  unfold AutoInt.valid; infer_instance

/-- Bad value packed by the AutoInteger constructor:
0 if z-flag, else 2 ** (bits - (1 if signed else 0)) - 1 (profile.py line 224). -/
def AutoInt.badValue (t : AutoInt) : Nat :=
  if t.zflag then 0 else 2 ^ (t.bits - (if t.signed then 1 else 0)) - 1

/-- Per-endian bad byte pattern of an AutoInteger. -/
def AutoInt.bad (t : AutoInt) (endian : Nat) : List Nat :=
  pack_bad t.size t.badValue endian

/-- AutoInteger.raw_to_internal: delegate to StructSupport._unpack. -/
def AutoInt.raw_to_internal (t : AutoInt) (data : List Nat) (count endian : Nat) :
    Except PyErr (Option PyVal) :=
  unpackInt t.signed t.size t.bad count endian data

/-- Smallest internal value of an AutoInteger (twos complement). -/
def AutoInt.min (t : AutoInt) : Int :=
  if t.signed then -(2 ^ (t.bits - 1)) else 0

/-- Largest internal value of an AutoInteger (twos complement). -/
def AutoInt.max (t : AutoInt) : Int :=
  if t.signed then 2 ^ (t.bits - 1) - 1 else 2 ^ t.bits - 1

/-- Bad sentinel of an AutoInteger as an integer value: 0 when the z-flag is
set, otherwise the all-ones pattern read back in the twos-complement range. -/
def AutoInt.sentinel (t : AutoInt) : Int :=
  if t.zflag then 0 else if t.signed then 2 ^ (t.bits - 1) - 1 else 2 ^ t.bits - 1

/-- Modelled from the spec: the fixed-width byte encoder `T.encode(v, e)` used
by the round-trip property of section 8.  No encoder exists in the source
(writing FIT files is a stated non-goal), so this follows the spec's words:
the value is written as count = 1 fixed-width twos-complement item in the
requested endian, the byte layout struct.pack would produce. -/
def AutoInt.encode (t : AutoInt) (v : Int) (endian : Nat) : List Nat :=
  let u : Nat := (v % (2 ^ t.bits : Int)).toNat
  if endian = LITTLE then toLE t.size u else (toLE t.size u).reverse

/-- StructSupport._unpack for float formats (AutoFloat): identical control flow
to the integer case, but the unpacked items are kept as the raw unsigned
contents of the bytes (the IEEE-754 reading is not modelled; no claim reaches
this path). -/
def unpackFloat (size : Nat) (bad : Nat → List Nat) (count endian : Nat)
    (data : List Nat) : Except PyErr (Option PyVal) :=
  if is_bad data (bad endian) then .ok none
  else if data.length < count * size then .error .structError
  else
    let value := (List.range count).map fun i =>
      if endian = LITTLE then fromLE ((data.drop (size * i)).take size)
      else fromLE ((data.drop (size * i)).take size).reverse
    if count = 1 then .ok (some (.float (value.headD 0)))
    else .ok (some (.floatList value))

/-- AutoFloat bad pattern value: 2 ** bits - 1 (profile.py line 273). -/
def floatBad (size endian : Nat) : List Nat :=
  pack_bad size (2 ^ (8 * size) - 1) endian

/-- String.raw_to_internal: unpack(count single-byte items, bytes) — struct
requires the buffer length to equal count exactly — then decode the joined
bytes as UTF-8.  The ASCII subset of UTF-8 is modelled; a byte at or above
0x80 is treated as a decode error (no claim decodes non-ASCII text). -/
def strRawToInternal (data : List Nat) (count : Nat) : Except PyErr (Option PyVal) :=
  if data.length ≠ count then .error .structError
  else if data.all (· < 128) then .ok (some (.str (String.mk (data.map Char.ofNat))))
  else .error .unicodeDecodeError

/-- Date.raw_to_internal builds on the uint32 decode result: Python then
evaluates time >= 0x10000000, which raises TypeError when the uint32 decoder
returned None (the bad sentinel) or a list (count other than 1); at or above
the threshold the value becomes datetime(1989,12,31, tzinfo) + seconds. -/
def dateRawToInternal (utc : Bool) (u32 : Except PyErr (Option PyVal)) :
    Except PyErr (Option PyVal) :=
  match u32 with
  | .error e => .error e
  | .ok none => .error .typeError
  | .ok (some (.int n)) =>
      if (0x10000000 : Int) ≤ n then .ok (some (.time n utc)) else .ok (some (.int n))
  | .ok (some _) => .error .typeError

/-- Tagged union of the concrete type variants reachable by the claims.
Mapping types forward raw decoding to their base type, and AliasInteger (enum,
byte, the Date base) decodes exactly as the aliased AutoInteger, so both are
represented by the variant they forward to. -/
inductive FitType
  | autoInt (t : AutoInt)
  | autoFloat (size : Nat)
  | stringT
  | dateT (utc : Bool)
deriving DecidableEq, Repr

/-- Size in bytes of a type (AbstractType.size). -/
def FitType.size : FitType → Nat
  | .autoInt t => t.size
  | .autoFloat s => s
  | .stringT => 1
  | .dateT _ => 4

/-- The uint32 AutoInteger that Date aliases. -/
def uint32AI : AutoInt := { signed := false, size := 4, zflag := false }

/-- Dispatch of raw_to_internal over the type variants. -/
def FitType.raw_to_internal : FitType → List Nat → Nat → Nat → Except PyErr (Option PyVal)
  | .autoInt t, data, count, endian => t.raw_to_internal data count endian
  | .autoFloat s, data, count, endian => unpackFloat s (floatBad s) count endian data
  | .stringT, data, count, _ => strRawToInternal data count
  | .dateT utc, data, count, endian =>
      dateRawToInternal utc (uint32AI.raw_to_internal data count endian)

/-- Alternative field stored in a dynamic table (a RowMessageField: plain name,
number, units and type; it carries no dynamic data of its own). -/
structure RowField where
  name : String
  number : Option Int
  units : String
  type : FitType
deriving DecidableEq, Repr

/-- Dynamic callback: given the reference names of a field, yields the
(reference-name, value) pairs already decoded in the current record. -/
abbrev DynCb := List String → List (String × Int)

/-- MessageField (with the DynamicMessageField data): name, optional number,
unit string (empty when the profile cell was blank), type, the is_dynamic flag
(true when the field owns dynamic alternatives), the reference names, and the
dynamic lookup table (reference-name, reference-internal-value) to field. -/
structure MessageField where
  name : String
  number : Option Int
  units : String
  type : FitType
  is_dynamic : Bool
  references : List String
  dynamic : List ((String × Int) × RowField)
deriving DecidableEq, Repr

/-- MessageField._with_unit: None passes through; otherwise str(value) with
the unit string appended. -/
def withUnit (units : String) : Option PyVal → Option PyVal
  | none => none
  | some v => some (.str (pyStr v ++ units))

/-- Dynamic-field probe loop of MessageField.raw_to_internal.  For each pair,
self.dynamic[pair] either misses (ErrorDict KeyError, swallowed by the except)
or hits; on a hit the source evaluates self[...] — subscripting the
MessageField itself, which defines no item access — so Python raises TypeError
before the alternative field is ever consulted.  When the loop exhausts the
pairs, Exception(No match for dynamic field ...) is raised. -/
def MessageField.dynProbe (f : MessageField) :
    List (String × Int) → Except PyErr (Option String × Option PyVal)
  | [] => .error .noMatchError
  | p :: ps =>
      match f.dynamic.find? (fun q => q.1 = p) with
      | some _ => .error .typeError
      | none => f.dynProbe ps

/-- MessageField.raw_to_internal (profile.py lines 392-403).  The size
argument is the element count computed by the caller.  Dynamic fields require
a callback (NotImplementedError otherwise) and run the probe loop; plain
fields decode through their type and adorn the value with the unit string,
returning the field name alongside. -/
def MessageField.raw_to_internal (f : MessageField) (data : List Nat) (size endian : Nat)
    (dynamic_cb : Option DynCb) : Except PyErr (Option String × Option PyVal) :=
  if f.is_dynamic then
    match dynamic_cb with
    | none => .error .notImplementedError
    | some cb => f.dynProbe (cb f.references)
  else
    match f.type.raw_to_internal data size endian with
    | .error e => .error e
    | .ok v => .ok (some f.name, withUnit f.units v)

/-- Field descriptor of a definition message as seen by Message.raw_to_internal:
field number, size in bytes, and the base type already resolved from its index
in the base-type table. -/
structure FieldDesc where
  number : Int
  size : Nat
  base_type : FitType
deriving DecidableEq, Repr

/-- Message definition: the endian flag and the ordered field descriptors. -/
structure MsgDefinition where
  endian : Nat
  fields : List FieldDesc
deriving DecidableEq, Repr

/-- Decoded record mapping: a Python dict with insertion order.  Keys are
Option String because Header._parse_field can return name = None. -/
abbrev PyDict := List (Option String × Option PyVal)

/-- Python dict lookup: the outer Option is key presence, the inner is the
stored value (which may itself be Python None). -/
def dictGet (d : PyDict) (k : Option String) : Option (Option PyVal) :=
  (d.find? (fun p => p.1 = k)).map (·.2)

/-- Python dict assignment message[name] = value: replace in place when the
key exists, else append. -/
def dictSet (d : PyDict) (k : Option String) (v : Option PyVal) : PyDict :=
  if d.any (fun p => p.1 = k) then d.map (fun p => if p.1 = k then (k, v) else p)
  else d ++ [(k, v)]

/-- Message: profile name, optional message number, the fields (indexed below
by number), and whether this is the synthetic Header subclass, whose
_parse_field override intercepts the checksum field. -/
structure Message where
  name : String
  number : Option Int
  fields : List MessageField
  isHeader : Bool
deriving DecidableEq, Repr

/-- Message.number_to_field via the _number_to_field ErrorDict: a miss raises
KeyError (represented at the use site). -/
def Message.number_to_field (m : Message) (n : Int) : Option MessageField :=
  m.fields.find? (fun f => f.number = some n)

/-- Python equality of a stored mapping value with an int literal, as used by
message[header_size] == 12: int compares by value, str/None/list with an int
compare unequal. -/
def pyEqInt (v : Option PyVal) (k : Int) : Bool :=
  match v with
  | some (.int n) => n = k
  | _ => false

/-- Message._parse_field with the Header override: for the Header message the
checksum field is suppressed (None, None) when message[header_size] == 12 —
note the lookup of header_size in the partial dict raises KeyError when absent
— and every other case falls through to MessageField.raw_to_internal. -/
def Message.parse_field (m : Message) (message : PyDict) (field : MessageField)
    (data : List Nat) (count endian : Nat) (dynamic_cb : Option DynCb) :
    Except PyErr (Option String × Option PyVal) :=
  if m.isHeader then
    if field.name = "checksum" then
      match dictGet message (some "header_size") with
      | none => .error .keyError
      | some v =>
          if pyEqInt v 12 then .ok (none, none)
          else field.raw_to_internal data count endian dynamic_cb
    else field.raw_to_internal data count endian dynamic_cb
  else field.raw_to_internal data count endian dynamic_cb

/-- Body of the try block of Message.raw_to_internal for one descriptor: the
field lookup by number (ErrorDict KeyError on a miss) and the guarded parse;
a KeyError from either is caught by the caller. -/
def tryField (m : Message) (message : PyDict) (fd : FieldDesc) (bytes : List Nat)
    (endian : Nat) (dynamic_cb : Option DynCb) :
    Except PyErr (Option String × Option PyVal) :=
  match m.number_to_field fd.number with
  | some field => m.parse_field message field bytes (fd.size / field.type.size) endian dynamic_cb
  | none => .error .keyError

/-- Except-KeyError handler of Message.raw_to_internal: the key becomes the
decimal field number as a string and the value str() of the base-type decode
(str(None) = "None" when the bytes were the bad sentinel); exceptions raised
inside the handler propagate. -/
def fallbackField (fd : FieldDesc) (bytes : List Nat) (endian : Nat) :
    Except PyErr (Option String × Option PyVal) :=
  match fd.base_type.raw_to_internal bytes (fd.size / fd.base_type.size) endian with
  | .error e => .error e
  | .ok v => .ok (some (toString fd.number), some (.str (pyStrOpt v)))

/-- One iteration of the loop of Message.raw_to_internal: try the known-field
path, catching KeyError with the base-type fallback. -/
def handleField (m : Message) (message : PyDict) (fd : FieldDesc) (bytes : List Nat)
    (endian : Nat) (dynamic_cb : Option DynCb) :
    Except PyErr (Option String × Option PyVal) :=
  match tryField m message fd bytes endian dynamic_cb with
  | .error .keyError => fallbackField fd bytes endian
  | r => r

/-- Loop of Message.raw_to_internal over the field descriptors, threading the
byte offset and the partial mapping. -/
def Message.rawGo (m : Message) (data : List Nat) (endian : Nat) (dynamic_cb : Option DynCb) :
    List FieldDesc → Nat → PyDict → Except PyErr PyDict
  | [], _, message => .ok message
  | fd :: rest, offset, message =>
      match handleField m message fd ((data.drop offset).take fd.size) endian dynamic_cb with
      | .error e => .error e
      | .ok (name, value) =>
          m.rawGo data endian dynamic_cb rest (offset + fd.size) (dictSet message name value)

/-- Message.raw_to_internal (profile.py lines 467-482): decode the data bytes
against a definition, producing the record mapping. -/
def Message.raw_to_internal (m : Message) (data : List Nat) (definition : MsgDefinition)
    (dynamic_cb : Option DynCb) : Except PyErr PyDict :=
  m.rawGo data definition.endian dynamic_cb definition.fields 0 []

/-- The uint8 base integer type. -/
def uint8AI : AutoInt := { signed := false, size := 1, zflag := false }

/-- The sint8 base integer type. -/
def sint8AI : AutoInt := { signed := true, size := 1, zflag := false }

/-- The uint16 base integer type. -/
def uint16AI : AutoInt := { signed := false, size := 2, zflag := false }

/-- The sint16 base integer type. -/
def sint16AI : AutoInt := { signed := true, size := 2, zflag := false }

/-- The sint32 base integer type. -/
def sint32AI : AutoInt := { signed := true, size := 4, zflag := false }

/-- The sint64 base integer type. -/
def sint64AI : AutoInt := { signed := true, size := 8, zflag := false }

/-- The uint64 base integer type. -/
def uint64AI : AutoInt := { signed := false, size := 8, zflag := false }

/-- Names of the 17 canonical base types in index order (BASE_TYPE_NAMES,
table 4-6 of the FIT definition document). -/
def BASE_TYPE_NAMES : List String :=
  ["enum", "sint8", "uint8", "sint16", "uint16", "sint32", "uint32",
   "string", "float32", "float64",
   "uint8z", "uint16z", "uint32z", "byte", "sint64", "uint64", "uint64z"]

/-- The base_types list of the Types registry: the decoder for each base-type
index.  enum and byte are AliasIntegers of uint8 and therefore decode as
uint8; the z-flagged names carry the all-zero bad pattern. -/
def base_types : List FitType :=
  [.autoInt uint8AI, .autoInt sint8AI, .autoInt uint8AI, .autoInt sint16AI,
   .autoInt uint16AI, .autoInt sint32AI, .autoInt uint32AI,
   .stringT, .autoFloat 4, .autoFloat 8,
   .autoInt { signed := false, size := 1, zflag := true },
   .autoInt { signed := false, size := 2, zflag := true },
   .autoInt { signed := false, size := 4, zflag := true },
   .autoInt uint8AI, .autoInt sint64AI, .autoInt uint64AI,
   .autoInt { signed := false, size := 8, zflag := true }]

/-- A plain (non-dynamic) MessageField with no dynamic data, as built by the
MessageField constructor for a named field with a number. -/
def plainField (name : String) (number : Int) (units : String) (type : FitType) :
    MessageField :=
  { name := name, number := some number, units := units, type := type,
    is_dynamic := false, references := [], dynamic := [] }

/-- The synthetic HEADER message built from HEADER_FIELDS: six numbered plain
fields (units None becomes the empty string) and the Header._parse_field
override enabled. -/
def HEADER : Message :=
  { name := "HEADER", number := some (-1), isHeader := true,
    fields :=
      [plainField "header_size" 0 "" (.autoInt uint8AI),
       plainField "protocol_version" 1 "" (.autoInt uint8AI),
       plainField "profile_version" 2 "" (.autoInt uint16AI),
       plainField "data_size" 3 "" (.autoInt uint32AI),
       plainField "fit_text" 4 "" .stringT,
       plainField "checksum" 5 "" (.autoInt uint16AI)] }

/-- Missing: the synthetic placeholder message for an unknown global message
number, named MESSAGE followed by the number, with no fields. -/
def Missing (number : Int) : Message :=
  { name := "MESSAGE " ++ toString number, number := some number,
    fields := [], isHeader := false }

/-- Messages catalog state: the two indexes the class carries (profile name to
message and number to message), as insertion-ordered association lists. -/
structure Messages where
  profileIndex : List (String × Message)
  numberIndex : List (Int × Message)
deriving DecidableEq

/-- Lookup in the number index of the catalog. -/
def Messages.lookupNumber (ms : Messages) (n : Int) : Option Message :=
  (ms.numberIndex.find? (fun p => p.1 = n)).map (·.2)

/-- Messages.number_to_message (profile.py lines 566-572): a hit returns the
stored message unchanged; a miss builds the Missing placeholder, stores it in
the number index, and returns it.  The function returns the updated catalog
state alongside the message, making the mutation explicit. -/
def Messages.number_to_message (ms : Messages) (n : Int) : Message × Messages :=
  match ms.lookupNumber n with
  | some m => (m, ms)
  | none =>
      let m := Missing n
      (m, { ms with numberIndex := ms.numberIndex ++ [(n, m)] })

/-- Dynamic-field scenario of claim C1: the alternative field the dynamic
table maps (sport, 2) to — a uint8 target, as in the workout_step profile
rows. -/
def targetHrAlt : RowField :=
  { name := "target_hr_zone", number := some 4, units := "", type := .autoInt uint8AI }

/-- Dynamic-field scenario of claim C1: the generic target field, declared
uint16, with reference field sport and one dynamic-table entry for
(sport, 2). -/
def targetField : MessageField :=
  { name := "target_value", number := some 4, units := "", type := .autoInt uint16AI,
    is_dynamic := true, references := ["sport"],
    dynamic := [(("sport", 2), targetHrAlt)] }

/-- Wire definition of the synthetic HEADER message: six descriptors whose
sizes follow HEADER_FIELDS, little endian. -/
def headerDefinition : MsgDefinition :=
  { endian := LITTLE,
    fields :=
      [{ number := 0, size := 1, base_type := .autoInt uint8AI },
       { number := 1, size := 1, base_type := .autoInt uint8AI },
       { number := 2, size := 2, base_type := .autoInt uint16AI },
       { number := 3, size := 4, base_type := .autoInt uint32AI },
       { number := 4, size := 4, base_type := .stringT },
       { number := 5, size := 2, base_type := .autoInt uint16AI }] }

/-- A concrete 12-byte file header: header_size 12, protocol 16, profile
version 2020, data size 200, fit_text ".FIT" — and no checksum bytes. -/
def headerData12 : List Nat :=
  [12, 16, 228, 7, 200, 0, 0, 0, 46, 70, 73, 84]

/-- The mapping the embedded decoder produces for `headerData12`: every value
a unit-adorned string, and the checksum field present with a null value
because the suppression test compares the string "12" with the int 12. -/
def headerResult12 : PyDict :=
  [(some "header_size", some (.str "12")),
   (some "protocol_version", some (.str "16")),
   (some "profile_version", some (.str "2020")),
   (some "data_size", some (.str "200")),
   (some "fit_text", some (.str ".FIT")),
   (some "checksum", none)]

/-- Unknown-field scenario of claims C5: a definition declaring field number
250 with size 1 and the base type at index 2 of the base-type table. -/
def unknownFieldDefn : MsgDefinition :=
  { endian := LITTLE, fields := [{ number := 250, size := 1, base_type := base_types.getD 2 .stringT }] }

/-- Size-mismatch scenario of claim C6: a known message with a single uint16
field numbered 1. -/
def speedMessage : Message :=
  { name := "activity", number := some 20, isHeader := false,
    fields := [plainField "speed" 1 "" (.autoInt uint16AI)] }

/-- Size-mismatch scenario of claim C6: the descriptor declares 3 bytes for
the 2-byte uint16 field. -/
def oddSizeDefn : MsgDefinition :=
  { endian := LITTLE, fields := [{ number := 1, size := 3, base_type := .autoInt uint8AI }] }

/-!
Supporting lemmas about the byte-level helpers.
-/

/-- Length of the little-endian byte rendering. -/
theorem toLE_length (n v : Nat) : (toLE n v).length = n := by
  induction n generalizing v with
  | zero => rfl
  | succ n ih => simp [toLE, ih]

/-- Length of a packed bad pattern. -/
theorem pack_bad_length (size value endian : Nat) : (pack_bad size value endian).length = size := by
  unfold pack_bad; split <;> simp [toLE_length]

/-- Shifting a sum of a small remainder into a product modulus. -/
theorem mod_mul_helper (q r K : Nat) (hr : r < 256) (hK : 0 < K) :
    (256 * q + r) % (256 * K) = 256 * (q % K) + r := by
  conv_lhs => rw [← Nat.div_add_mod q K]
  have h1 : 256 * (K * (q / K) + q % K) + r = (256 * (q % K) + r) + (256 * K) * (q / K) := by
    ring
  rw [h1, Nat.add_mul_mod_self_left]
  have h2 : q % K < K := Nat.mod_lt q hK
  exact Nat.mod_eq_of_lt (by omega)

/-- Reading back the little-endian rendering gives the value modulo 256^n. -/
theorem fromLE_toLE (n v : Nat) : fromLE (toLE n v) = v % 256 ^ n := by
  induction n generalizing v with
  | zero => simp [toLE, fromLE, Nat.mod_one]
  | succ n ih =>
      have h256 : (256 : Nat) ^ (n + 1) = 256 * 256 ^ n := by ring
      rw [toLE, fromLE, ih, h256]
      calc v % 256 + 256 * (v / 256 % 256 ^ n)
          = (256 * (v / 256) + v % 256) % (256 * 256 ^ n) := by
            rw [mod_mul_helper _ _ _ (Nat.mod_lt v (by norm_num))
              (pow_pos (by norm_num) n)]
            ring
        _ = v % (256 * 256 ^ n) := by rw [Nat.div_add_mod]

/-- The little-endian rendering is injective below 256^n. -/
theorem toLE_inj {n a b : Nat} (ha : a < 256 ^ n) (hb : b < 256 ^ n)
    (h : toLE n a = toLE n b) : a = b := by
  have h2 := congrArg fromLE h
  rwa [fromLE_toLE, fromLE_toLE, Nat.mod_eq_of_lt ha, Nat.mod_eq_of_lt hb] at h2

/-- The empty byte string counts as bad (zero slices to check). -/
theorem is_bad_nil (bad : List Nat) : is_bad [] bad = true := by
  simp [is_bad]

/-- Slice i+1 of the data is slice i of the data with the first pattern
length dropped. -/
theorem slice_shift (data bad : List Nat) (i : Nat) :
    sliceIsBad data bad (i + 1) = sliceIsBad (data.drop bad.length) bad i := by
  unfold sliceIsBad
  rw [List.drop_drop]
  have h : bad.length + bad.length * i = bad.length * (i + 1) := by ring
  rw [h]

/-- Peeling one pattern length off the bad-check. -/
theorem is_bad_peel (data bad : List Nat) (hp : 0 < bad.length)
    (hle : bad.length ≤ data.length) :
    is_bad data bad =
      (decide (data.take bad.length = bad) && is_bad (data.drop bad.length) bad) := by
  unfold is_bad
  rw [List.length_drop, Nat.div_eq_sub_div hp hle, List.range_succ_eq_map, List.all_cons,
    List.all_map]
  have hf : (sliceIsBad data bad ∘ Nat.succ) = sliceIsBad (data.drop bad.length) bad :=
    funext fun i => slice_shift data bad i
  have h0 : sliceIsBad data bad 0 = decide (data.take bad.length = bad) := by
    simp [sliceIsBad]
  rw [hf, h0]

/-- For data of exactly one pattern length, the bad-check is equality with
the pattern. -/
theorem is_bad_single (data bad : List Nat) (hp : 0 < bad.length)
    (hlen : data.length = bad.length) :
    is_bad data bad = decide (data = bad) := by
  rw [is_bad_peel data bad hp (le_of_eq hlen.symm), ← hlen, List.take_length,
    List.drop_length, is_bad_nil, Bool.and_true]

/-- For data of exactly count pattern lengths, the bad-check holds exactly
when the data is the pattern repeated count times. -/
theorem is_bad_replicate_iff (bad : List Nat) (hp : 0 < bad.length) :
    ∀ (count : Nat) (data : List Nat), data.length = count * bad.length →
      (is_bad data bad = true ↔ data = (List.replicate count bad).flatten) := by
  intro count
  induction count with
  | zero =>
      intro data hlen
      have hd : data = [] := List.length_eq_zero.mp (by simpa using hlen)
      subst hd
      simp [is_bad_nil]
  | succ n ih =>
      intro data hlen
      have hle : bad.length ≤ data.length := by
        rw [hlen, Nat.succ_mul]; omega
      have hdl : (data.drop bad.length).length = n * bad.length := by
        rw [List.length_drop, hlen, Nat.succ_mul]; omega
      rw [is_bad_peel data bad hp hle, Bool.and_eq_true, decide_eq_true_eq,
        ih (data.drop bad.length) hdl]
      constructor
      · rintro ⟨h1, h2⟩
        conv_lhs => rw [← List.take_append_drop bad.length data]
        rw [h1, h2, List.replicate_succ, List.flatten_cons]
      · intro h
        rw [List.replicate_succ, List.flatten_cons] at h
        constructor
        · rw [h]; exact List.take_left' rfl
        · rw [h]; exact List.drop_left' rfl

/-- Casting the packed bad value to an integer gives the sentinel value. -/
theorem badValue_cast (t : AutoInt) (hpos : 0 < t.size) :
    ((t.badValue : Nat) : Int) = t.sentinel := by
  have hb1 : 1 <= t.bits := by unfold AutoInt.bits; omega
  have h1 : 1 <= 2 ^ (t.bits - 1) := Nat.one_le_two_pow
  have h2 : 1 <= 2 ^ t.bits := Nat.one_le_two_pow
  unfold AutoInt.badValue AutoInt.sentinel
  by_cases hz : t.zflag
  . simp [hz]
  . by_cases hs : t.signed
    . simp only [hz, hs, Bool.false_eq_true, if_false, if_true]
      push_cast [Nat.cast_sub h1]
      ring
    . simp only [hz, hs, Bool.false_eq_true, if_false, Nat.sub_zero]
      push_cast [Nat.cast_sub h2]
      ring

/-- Powers of 2 with byte-multiple exponents are powers of 256. -/
theorem two_pow_8mul (n : Nat) : (2 : Nat) ^ (8 * n) = 256 ^ n := by
  rw [pow_mul]
  norm_num

/-- The dynamic probe loop never returns normally: a hit raises TypeError and
exhaustion raises the no-match exception. -/
theorem dynProbe_not_ok (f : MessageField) :
    ∀ (ps : List (String × Int)) (r : Option String × Option PyVal),
      f.dynProbe ps ≠ .ok r := by
  intro ps
  induction ps with
  | nil =>
      intro r h
      simp [MessageField.dynProbe] at h
  | cons p ps ih =>
      intro r h
      unfold MessageField.dynProbe at h
      split at h
      . simp at h
      . exact ih r h

/-- Unit adornment yields null or a string. -/
theorem withUnit_shape (units : String) (v : Option PyVal) :
    withUnit units v = none ∨ ∃ s, withUnit units v = some (PyVal.str s) := by
  cases v with
  | none => left; rfl
  | some v => right; exact ⟨pyStr v ++ units, rfl⟩

/-- Membership in a dict after assignment. -/
theorem mem_dictSet (d : PyDict) (k : Option String) (v : Option PyVal)
    (p : Option String × Option PyVal) (hp : p ∈ dictSet d k v) :
    p ∈ d ∨ p = (k, v) := by
  unfold dictSet at hp
  split at hp
  . rcases List.mem_map.mp hp with ⟨q, hq, he⟩
    by_cases hqk : q.1 = k
    . right
      rw [← he, if_pos hqk]
    . left
      rw [← he, if_neg hqk]
      exact hq
  . rcases List.mem_append.mp hp with h | h
    . left; exact h
    . right; simpa using h

/-- A normal return of MessageField.raw_to_internal carries a null or string
value. -/
theorem field_raw_ok_shape (f : MessageField) (data : List Nat) (size endian : Nat)
    (cb : Option DynCb) (name : Option String) (value : Option PyVal)
    (h : f.raw_to_internal data size endian cb = .ok (name, value)) :
    value = none ∨ ∃ s, value = some (PyVal.str s) := by
  unfold MessageField.raw_to_internal at h
  split at h
  . cases cb with
    | none => simp at h
    | some g => exact absurd h (dynProbe_not_ok f _ _)
  . split at h
    . simp at h
    . simp only [Except.ok.injEq, Prod.mk.injEq] at h
      rw [← h.2]
      exact withUnit_shape f.units _

/-- A normal return of the except-KeyError fallback is always a string. -/
theorem fallbackField_ok_shape (fd : FieldDesc) (bytes : List Nat) (endian : Nat)
    (name : Option String) (value : Option PyVal)
    (h : fallbackField fd bytes endian = .ok (name, value)) :
    ∃ s, value = some (PyVal.str s) := by
  unfold fallbackField at h
  split at h
  . simp at h
  . simp only [Except.ok.injEq, Prod.mk.injEq] at h
    exact ⟨_, h.2.symm⟩

/-- A normal return of the guarded parse carries a null or string value. -/
theorem parse_field_ok_shape (m : Message) (message : PyDict) (field : MessageField)
    (data : List Nat) (count endian : Nat) (cb : Option DynCb) (name : Option String)
    (value : Option PyVal)
    (h : m.parse_field message field data count endian cb = .ok (name, value)) :
    value = none ∨ ∃ s, value = some (PyVal.str s) := by
  unfold Message.parse_field at h
  split at h
  . split at h
    . split at h
      . simp at h
      . split at h
        . simp only [Except.ok.injEq, Prod.mk.injEq] at h
          left
          exact h.2.symm
        . exact field_raw_ok_shape _ _ _ _ _ _ _ h
    . exact field_raw_ok_shape _ _ _ _ _ _ _ h
  . exact field_raw_ok_shape _ _ _ _ _ _ _ h

/-- A normal return of one loop iteration carries a null or string value. -/
theorem handleField_ok_shape (m : Message) (message : PyDict) (fd : FieldDesc)
    (bytes : List Nat) (endian : Nat) (cb : Option DynCb) (name : Option String)
    (value : Option PyVal)
    (h : handleField m message fd bytes endian cb = .ok (name, value)) :
    value = none ∨ ∃ s, value = some (PyVal.str s) := by
  unfold handleField at h
  split at h
  . rcases fallbackField_ok_shape _ _ _ _ _ h with ⟨s, hs⟩
    exact Or.inr ⟨s, hs⟩
  . rename_i ht
    unfold tryField at h
    split at h
    . exact parse_field_ok_shape _ _ _ _ _ _ _ _ _ h
    . simp at h

/-- Every value inserted by the decode loop is null or a string. -/
theorem rawGo_values (m : Message) (data : List Nat) (endian : Nat) (cb : Option DynCb) :
    ∀ (fds : List FieldDesc) (offset : Nat) (acc out : PyDict),
      (∀ p ∈ acc, p.2 = none ∨ ∃ s, p.2 = some (PyVal.str s)) →
      m.rawGo data endian cb fds offset acc = .ok out →
      ∀ p ∈ out, p.2 = none ∨ ∃ s, p.2 = some (PyVal.str s) := by
  intro fds
  induction fds with
  | nil =>
      intro offset acc out hacc h p hp
      simp only [Message.rawGo, Except.ok.injEq] at h
      rw [← h] at hp
      exact hacc p hp
  | cons fd rest ih =>
      intro offset acc out hacc h
      unfold Message.rawGo at h
      cases hh : handleField m acc fd ((data.drop offset).take fd.size) endian cb with
      | error e =>
          rw [hh] at h
          simp at h
      | ok nv =>
          rw [hh] at h
          obtain ⟨name, value⟩ := nv
          simp only [] at h
          have hval := handleField_ok_shape m acc fd _ endian cb name value hh
          refine ih (offset + fd.size) (dictSet acc name value) out ?_ h
          intro p hp
          rcases mem_dictSet acc name value p hp with hmem | heq
          . exact hacc p hmem
          . rw [heq]
            exact hval

/-!
Theorems settling the claims.
-/

/-- C1: the claimed dynamic-field dispatch does not happen.  With a callback
supplying (sport, 2) — a dynamic-table hit — the decoder raises TypeError
(profile.py line 398 subscripts the MessageField object itself), so the uint8
alternative never decodes the bytes; with (sport, 5) — no hit — it raises the
No-match exception instead of decoding through the declared uint16 type. -/
theorem c1_dynamic_dispatch_raises :
    targetField.raw_to_internal [42] 1 LITTLE (some fun _ => [("sport", 2)]) =
      .error .typeError ∧
    targetField.raw_to_internal [42, 0] 1 LITTLE (some fun _ => [("sport", 5)]) =
      .error .noMatchError := by
  exact ⟨rfl, rfl⟩

/-- C3: decoding a 12-byte header does NOT suppress the checksum field.  The
partial mapping stores header_size as the unit-adorned string "12", so the
comparison with the int 12 in Header._parse_field is false and the checksum
field is decoded from the empty byte slice to a null value — the resulting
mapping contains the key checksum (with value None). -/
theorem c3_checksum_key_present :
    HEADER.raw_to_internal headerData12 headerDefinition none = .ok headerResult12 ∧
    dictGet headerResult12 (some "checksum") = some none := by
  exact ⟨rfl, rfl⟩

/-- C4: decoding the uint32 all-ones bad pattern through date_time raises
TypeError instead of returning None: Date.raw_to_internal compares the None
returned by the uint32 decoder against 0x10000000. -/
theorem c4_date_bad_sentinel_raises :
    (FitType.dateT true).raw_to_internal [255, 255, 255, 255] 1 LITTLE =
      .error .typeError := by
  exact rfl

/-- C5 counterexample: for the unknown field number 250 with base-type index 2
(uint8) and data byte 0x2A, the decoded mapping stores the STRING "42" (the
except-KeyError fallback wraps the decoded value in str()), not the number
42. -/
theorem c5_unknown_field_value_is_string :
    (Missing 35).raw_to_internal [42] unknownFieldDefn none =
      .ok [(some "250", some (.str "42"))] ∧
    some (PyVal.str "42") ≠ some (PyVal.int 42) := by
  exact ⟨rfl, by decide⟩

/-- C5 amended: the value is decoded using the base type at index 2 of the
base-type table (uint8) and stored under the decimal field number as a string
key, with the value rendered through str(); byte 0x2A yields the entry
"250" mapped to "42". -/
theorem c5_unknown_field_base_type_fallback (b : Nat) (hb : b < 255) :
    base_types.getD 2 .stringT = .autoInt uint8AI ∧
    (Missing 35).raw_to_internal [b] unknownFieldDefn none =
      .ok [(some "250", some (.str (toString (b : Int))))] := by
  refine ⟨rfl, ?_⟩
  have hbad : is_bad [b] [255] = false := by
    rw [is_bad_single [b] [255] (by decide) rfl]
    simp
    omega
  simp [Message.raw_to_internal, Message.rawGo, handleField, tryField, fallbackField,
    Message.parse_field, Message.number_to_field, Missing, unknownFieldDefn, base_types,
    FitType.raw_to_internal, AutoInt.raw_to_internal, unpackInt, hbad, chunkVal, fromLE,
    pyStrOpt, pyStr, dictSet, AutoInt.bad, pack_bad, AutoInt.badValue, AutoInt.bits,
    uint8AI, LITTLE, toLE, List.range_succ, FitType.size, List.find?]
  rfl

/-- C5 amended witness at byte 0x2A. -/
theorem c5_unknown_field_base_type_fallback_witness :
    base_types.getD 2 .stringT = .autoInt uint8AI ∧
    (Missing 35).raw_to_internal [42] unknownFieldDefn none =
      .ok [(some "250", some (.str (toString (42 : Int))))] :=
  c5_unknown_field_base_type_fallback 42 (by decide)

/-- C6 counterexample: the descriptor size 3 is not a multiple of the uint16
field size 2, yet the record decodes without any error: the element count is
floored to 1 and the trailing byte is silently ignored. -/
theorem c6_no_size_mismatch_error :
    speedMessage.raw_to_internal [1, 0, 99] oddSizeDefn none =
      .ok [(some "speed", some (.str "1"))] := by
  exact rfl

/-- C6 amended: when the descriptor size is not a multiple of the field
type's size, the decoder silently uses count = size / type.size (floor
division) and ignores the remainder bytes — whatever the trailing byte is,
the record decodes to the same mapping with no error. -/
theorem c6_truncated_count_silent (b : Nat) :
    speedMessage.raw_to_internal [1, 0, b] oddSizeDefn none =
      .ok [(some "speed", some (.str "1"))] := by
  have hbad : is_bad [1, 0, b] [255, 255] = false := by
    rw [is_bad_peel [1, 0, b] [255, 255] (by decide) (by simp)]
    simp
  simp [Message.raw_to_internal, Message.rawGo, handleField, tryField, fallbackField,
    Message.parse_field, Message.number_to_field, MessageField.raw_to_internal, plainField,
    speedMessage, oddSizeDefn, FitType.raw_to_internal, AutoInt.raw_to_internal, unpackInt,
    hbad, chunkVal, fromLE, withUnit, pyStr, dictSet, AutoInt.bad, pack_bad, AutoInt.badValue,
    AutoInt.bits, uint16AI, LITTLE, toLE, List.range_succ, FitType.size, List.find?]
  rfl

/-- C6 amended witness at trailing byte 77. -/
theorem c6_truncated_count_silent_witness :
    speedMessage.raw_to_internal [1, 0, 77] oddSizeDefn none =
      .ok [(some "speed", some (.str "1"))] :=
  c6_truncated_count_silent 77

/-- C7 counterexample: bytes 00 00 00 10 under date_time little-endian decode
to 1989-12-31T00:00:00Z + 268435456 s, which is 1998-07-03T21:24:16Z, not the
claimed 1998-07-03T12:04:16Z. -/
theorem c7_timestamp_value_wrong :
    (FitType.dateT true).raw_to_internal [0, 0, 0, 16] 1 LITTLE ≠
      .ok (some (.time (fitSecs 1998 7 3 12 4 16) true)) := by
  decide

/-- C7 amended: for count 1, Date decoding delegates to the uint32 decoder
and returns the raw integer unchanged below 0x10000000, and otherwise the
absolute timestamp 1989-12-31T00:00:00 (+UTC) plus that many seconds; bytes
00 00 00 10 little-endian decode to 1998-07-03T21:24:16Z, and bytes encoding
42 decode to 42. -/
theorem c7_date_decode_behaviour :
    (FitType.dateT true).raw_to_internal [0, 0, 0, 16] 1 LITTLE =
      .ok (some (.time (fitSecs 1998 7 3 21 24 16) true)) ∧
    fitSecs 1998 7 3 21 24 16 = 268435456 ∧
    (FitType.dateT true).raw_to_internal [42, 0, 0, 0] 1 LITTLE =
      .ok (some (.int 42)) ∧
    (∀ (utc : Bool) (data : List Nat) (count endian : Nat) (n : Int),
       uint32AI.raw_to_internal data count endian = .ok (some (.int n)) →
       (FitType.dateT utc).raw_to_internal data count endian =
         if (0x10000000 : Int) ≤ n then .ok (some (.time n utc))
         else .ok (some (.int n))) := by
  refine ⟨by decide, by decide, by decide, ?_⟩
  intro utc data count endian n h
  simp only [FitType.raw_to_internal, dateRawToInternal, h]

/-- C7 amended witness: the delegation conjunct applied at bytes encoding 42
(below the threshold). -/
theorem c7_date_decode_behaviour_witness :
    (FitType.dateT false).raw_to_internal [42, 0, 0, 0] 1 LITTLE =
      (if (0x10000000 : Int) ≤ 42 then .ok (some (.time 42 false))
       else .ok (some (.int 42))) :=
  c7_date_decode_behaviour.2.2.2 false [42, 0, 0, 0] 1 LITTLE 42 (by decide)

/-- C8 counterexample: resolving an unknown global message number does NOT
leave the Message Catalog unchanged — the Missing placeholder is memoized
into the number index. -/
theorem c8_catalog_mutates :
    (Messages.number_to_message ⟨[], []⟩ 999).2 ≠ (⟨[], []⟩ : Messages) := by
  decide

/-- C8 amended: resolving an unknown global message number yields the
synthetic MESSAGE-number placeholder with no fields, but installs it into the
catalog's number index (a memoizing mutation); a known number returns the
stored message with the catalog unchanged. -/
theorem c8_missing_message_memoized (ms : Messages) (n : Int) :
    (ms.lookupNumber n = none →
       Messages.number_to_message ms n =
         (Missing n, { ms with numberIndex := ms.numberIndex ++ [(n, Missing n)] }) ∧
       (Missing n).fields = [] ∧ (Missing n).name = "MESSAGE " ++ toString n) ∧
    (∀ m, ms.lookupNumber n = some m → Messages.number_to_message ms n = (m, ms)) := by
  constructor
  · intro h
    unfold Messages.number_to_message
    rw [h]
    exact ⟨rfl, rfl, rfl⟩
  · intro m h
    unfold Messages.number_to_message
    rw [h]

/-- C8 amended witness: the empty catalog and number 999. -/
theorem c8_missing_message_memoized_witness :
    Messages.number_to_message ⟨[], []⟩ 999 =
      (Missing 999, ⟨[], [(999, Missing 999)]⟩) ∧
    (Missing 999).fields = [] ∧ (Missing 999).name = "MESSAGE " ++ toString (999 : Int) :=
  (c8_missing_message_memoized ⟨[], []⟩ 999).1 rfl

/-- C2: for every AutoInteger, every count at least 1 and any endian, with the
input length the decoder contract prescribes (count times the type size),
decode returns None exactly when the input is the per-endian bad byte pattern
repeated count times; and the packed bad value is 0 under the z-flag,
otherwise 2^bits - 1 unsigned and 2^(bits-1) - 1 signed. -/
theorem c2_bad_pattern_decodes_none (t : AutoInt) (ht : t.valid) (count : Nat)
    (_hc : 1 ≤ count) (endian : Nat) (data : List Nat)
    (hlen : data.length = count * t.size) :
    (t.raw_to_internal data count endian = .ok none ↔
       data = (List.replicate count (t.bad endian)).flatten) ∧
    t.badValue = (if t.zflag then 0 else if t.signed then 2 ^ (t.bits - 1) - 1
                  else 2 ^ t.bits - 1) := by
  have hpos : 0 < t.size := by rcases ht with h | h | h | h <;> simp [h]
  have hblen : (t.bad endian).length = t.size := pack_bad_length _ _ _
  constructor
  · have hiff := is_bad_replicate_iff (t.bad endian) (by rw [hblen]; exact hpos) count data
      (by rw [hblen]; exact hlen)
    unfold AutoInt.raw_to_internal unpackInt
    by_cases hbad : is_bad data (t.bad endian) = true
    · simp only [hbad, if_true]
      simp [hiff.mp hbad]
    · have hbad2 : is_bad data (t.bad endian) = false := by simpa using hbad
      have hnl : ¬ data.length < count * t.size := by omega
      simp only [hbad2, Bool.false_eq_true, if_false, hnl]
      constructor
      · intro h
        by_cases h1 : count = 1 <;> simp [h1] at h
      · intro h
        exact absurd (hiff.mpr h) (by simp [hbad2])
  · by_cases hz : t.zflag <;> by_cases hs : t.signed <;>
      simp [AutoInt.badValue, hz, hs]

/-- C2 witness: uint16, count 2, little endian, all-ones input. -/
theorem c2_bad_pattern_decodes_none_witness :
    (uint16AI.raw_to_internal [255, 255, 255, 255] 2 LITTLE = .ok none ↔
       [255, 255, 255, 255] = (List.replicate 2 (uint16AI.bad LITTLE)).flatten) ∧
    uint16AI.badValue = (if uint16AI.zflag then 0 else if uint16AI.signed then
      2 ^ (uint16AI.bits - 1) - 1 else 2 ^ uint16AI.bits - 1) :=
  c2_bad_pattern_decodes_none uint16AI (by decide) 2 (by decide) LITTLE
    [255, 255, 255, 255] (by decide)

/-- C9: for every AutoInteger type, both endians and every value v in
[min, max] other than the bad sentinel, decoding the fixed-width byte encoding
of v (count 1) returns v — decode is a left inverse of the spec-modelled
encode. -/
theorem c9_decode_encode_roundtrip (t : AutoInt) (ht : t.valid) (endian : Nat) (v : Int)
    (hmin : t.min <= v) (hmax : v <= t.max) (hbad : v ≠ t.sentinel) :
    t.raw_to_internal (t.encode v endian) 1 endian = .ok (some (.int v)) := by
  have hpos : 0 < t.size := by rcases ht with h | h | h | h <;> simp [h]
  have hb1 : 1 <= t.bits := by unfold AutoInt.bits; omega
  have hB0 : (0 : Int) < 2 ^ t.bits := by positivity
  have hP1 : (1 : Int) <= 2 ^ (t.bits - 1) := by exact_mod_cast (Nat.one_le_two_pow : 1 <= 2 ^ (t.bits - 1))
  have hPB : (2 : Int) ^ t.bits = 2 * 2 ^ (t.bits - 1) := by
    have hsplit : t.bits = (t.bits - 1) + 1 := by omega
    conv_lhs => rw [hsplit]
    rw [pow_succ]
    ring
  have hmod_nonneg : 0 <= v % (2 ^ t.bits : Int) := Int.emod_nonneg v (ne_of_gt hB0)
  have hmod_lt : v % (2 ^ t.bits : Int) < 2 ^ t.bits := Int.emod_lt_of_pos v hB0
  have hcast : (((v % (2 ^ t.bits : Int)).toNat : Nat) : Int) = v % (2 ^ t.bits : Int) :=
    Int.toNat_of_nonneg hmod_nonneg
  have hmaxB : v < 2 ^ t.bits := by
    unfold AutoInt.max at hmax
    have hPle : (2 : Int) ^ (t.bits - 1) <= 2 ^ t.bits := by linarith
    split at hmax <;> linarith
  have hminB : -(2 ^ t.bits : Int) <= v := by
    unfold AutoInt.min at hmin
    split at hmin <;> linarith
  have hA1 : 0 <= v → (((v % (2 ^ t.bits : Int)).toNat : Nat) : Int) = v := by
    intro hv
    rw [hcast, Int.emod_eq_of_lt hv hmaxB]
  have hA2 : v < 0 → (((v % (2 ^ t.bits : Int)).toNat : Nat) : Int) = v + 2 ^ t.bits := by
    intro hv
    have h1 : (v + 2 ^ t.bits * 1) % (2 ^ t.bits : Int) = v % (2 ^ t.bits : Int) :=
      Int.add_mul_emod_self_left v (2 ^ t.bits) 1
    have h2 : (v + 2 ^ t.bits) % (2 ^ t.bits : Int) = v + 2 ^ t.bits :=
      Int.emod_eq_of_lt (by linarith) (by linarith)
    rw [hcast, ← h2]
    rw [mul_one] at h1
    rw [h1]
  -- Nat-side bounds for the unsigned value
  have huN : (v % (2 ^ t.bits : Int)).toNat < 2 ^ t.bits := by
    have h1 : (((v % (2 ^ t.bits : Int)).toNat : Nat) : Int) < ((2 ^ t.bits : Nat) : Int) := by
      push_cast
      rw [hcast]
      exact hmod_lt
    exact_mod_cast h1
  have hu256 : (v % (2 ^ t.bits : Int)).toNat < 256 ^ t.size := by
    rw [← two_pow_8mul]
    exact huN
  have hbv256 : t.badValue < 256 ^ t.size := by
    have h1 : (1 : Nat) <= 2 ^ t.bits := Nat.one_le_two_pow
    have h2 : (2 : Nat) ^ (t.bits - 1) <= 2 ^ t.bits :=
      Nat.pow_le_pow_right (by norm_num) (by omega)
    have h3 : t.badValue < 2 ^ t.bits := by
      unfold AutoInt.badValue
      split
      . omega
      . split <;> (try simp only [Nat.sub_zero]) <;> omega
    calc t.badValue < 2 ^ t.bits := h3
      _ = 2 ^ (8 * t.size) := rfl
      _ = 256 ^ t.size := two_pow_8mul t.size
  -- the encoded bytes are not the bad pattern
  have hne : (v % (2 ^ t.bits : Int)).toNat ≠ t.badValue := by
    intro h
    have hsent : (((v % (2 ^ t.bits : Int)).toNat : Nat) : Int) = t.sentinel := by
      rw [h, badValue_cast t hpos]
    rcases le_or_lt 0 v with hv | hv
    . exact hbad (by rw [← hA1 hv, hsent])
    . have hs : t.signed = true := by
        cases hst : t.signed
        . exfalso
          unfold AutoInt.min at hmin
          rw [hst] at hmin
          simp at hmin
          linarith
        . rfl
      have hsle : t.sentinel <= 2 ^ (t.bits - 1) - 1 := by
        unfold AutoInt.sentinel
        rw [hs]
        split
        . linarith
        . simp
      have hu2 := hA2 hv
      have hminP : -(2 ^ (t.bits - 1) : Int) <= v := by
        unfold AutoInt.min at hmin
        rw [hs] at hmin
        simpa using hmin
      rw [hu2] at hsent
      linarith
  -- the encoded bytes are well-sized and distinct from the bad pattern
  have henc_len : (t.encode v endian).length = t.size := by
    unfold AutoInt.encode
    split <;> simp [toLE_length]
  have hbadlen : (t.bad endian).length = t.size := pack_bad_length _ _ _
  have hisb : is_bad (t.encode v endian) (t.bad endian) = false := by
    rw [is_bad_single (t.encode v endian) (t.bad endian) (by rw [hbadlen]; exact hpos)
      (by rw [henc_len, hbadlen])]
    simp only [decide_eq_false_iff_not]
    intro he
    apply hne
    simp only [AutoInt.encode, AutoInt.bad, pack_bad] at he
    by_cases hE : endian = LITTLE
    . rw [if_pos hE, if_pos hE] at he
      exact toLE_inj hu256 hbv256 he
    . rw [if_neg hE, if_neg hE] at he
      exact toLE_inj hu256 hbv256 (List.reverse_inj.mp he)
  -- the unsigned value read back from the bytes
  have hfrom : (if endian = LITTLE then fromLE (t.encode v endian)
      else fromLE (t.encode v endian).reverse) = (v % (2 ^ t.bits : Int)).toNat := by
    unfold AutoInt.encode
    by_cases hE : endian = LITTLE
    . simp [hE, fromLE_toLE, Nat.mod_eq_of_lt hu256]
    . simp [hE, List.reverse_reverse, fromLE_toLE, Nat.mod_eq_of_lt hu256]
  have hchunk : chunkVal t.signed t.size endian (t.encode v endian) = v := by
    simp only [chunkVal]
    rw [hfrom]
    have hbits8 : 8 * t.size = t.bits := rfl
    rw [hbits8]
    cases hs : t.signed
    . have hv0 : 0 <= v := by
        unfold AutoInt.min at hmin
        rw [hs] at hmin
        simpa using hmin
      simp only [Bool.false_and, Bool.false_eq_true, if_false]
      exact hA1 hv0
    . rcases le_or_lt 0 v with hv | hv
      . have hmaxP : v <= 2 ^ (t.bits - 1) - 1 := by
          unfold AutoInt.max at hmax
          rw [hs] at hmax
          simpa using hmax
        have h1 : (((v % (2 ^ t.bits : Int)).toNat : Nat) : Int) < (2 : Int) ^ (t.bits - 1) := by
          rw [hA1 hv]
          linarith
        have hult : (v % (2 ^ t.bits : Int)).toNat < 2 ^ (t.bits - 1) := by
          exact_mod_cast h1
        have hcond : ¬ (2 ^ (t.bits - 1) <= (v % (2 ^ t.bits : Int)).toNat) :=
          Nat.not_le.mpr hult
        simp only [Bool.true_and, decide_eq_true_eq]
        rw [if_neg hcond]
        exact hA1 hv
      . have hminP : -(2 ^ (t.bits - 1) : Int) <= v := by
          unfold AutoInt.min at hmin
          rw [hs] at hmin
          simpa using hmin
        have h1 : (2 : Int) ^ (t.bits - 1) <= (((v % (2 ^ t.bits : Int)).toNat : Nat) : Int) := by
          rw [hA2 hv]
          linarith
        have huge : 2 ^ (t.bits - 1) <= (v % (2 ^ t.bits : Int)).toNat := by
          exact_mod_cast h1
        simp only [Bool.true_and, decide_eq_true_eq]
        rw [if_pos huge, hA2 hv]
        ring
  -- run the decoder
  have htake : (t.encode v endian).take t.size = t.encode v endian := by
    rw [← henc_len]
    exact List.take_length _
  have hlt : ¬ (t.encode v endian).length < 1 * t.size := by
    rw [henc_len]
    omega
  unfold AutoInt.raw_to_internal unpackInt
  simp [hisb, hlt, List.range_succ, htake, hchunk]
  rw [henc_len]

/-- C9 witness: sint16, big endian, value -5. -/
theorem c9_decode_encode_roundtrip_witness :
    sint16AI.raw_to_internal (sint16AI.encode (-5) BIG) 1 BIG =
      .ok (some (.int (-5))) :=
  c9_decode_encode_roundtrip sint16AI (by decide) BIG (-5) (by decide) (by decide)
    (by decide)

/-- C10: for every known non-dynamic field the stored record value is None or
the string str(value) concatenated with the field's unit string, and every
value in any decoded record mapping is null or a string — decoded numeric
values are never stored as numbers, even when the unit string is empty. -/
theorem c10_values_strings_or_null :
    (∀ (f : MessageField) (data : List Nat) (size endian : Nat) (cb : Option DynCb),
       f.is_dynamic = false →
       f.raw_to_internal data size endian cb =
         (f.type.raw_to_internal data size endian).map
           (fun v => (some f.name, withUnit f.units v))) ∧
    (∀ (m : Message) (data : List Nat) (defn : MsgDefinition) (cb : Option DynCb)
       (out : PyDict),
       m.raw_to_internal data defn cb = .ok out →
       ∀ p ∈ out, p.2 = none ∨ ∃ s, p.2 = some (PyVal.str s)) := by
  constructor
  . intro f data size endian cb hdyn
    unfold MessageField.raw_to_internal
    rw [hdyn]
    simp only [Bool.false_eq_true, if_false]
    cases h : f.type.raw_to_internal data size endian <;> simp [Except.map]
  . intro m data defn cb out h
    exact rawGo_values m data defn.endian cb defn.fields 0 [] out
      (by intro p hp; cases hp) h

/-- C10 witness: the non-dynamic field equation applied to a concrete uint16
field and bytes 01 00. -/
theorem c10_values_strings_or_null_witness :
    (plainField "speed" 1 "" (.autoInt uint16AI)).raw_to_internal [1, 0] 1 LITTLE none =
      ((plainField "speed" 1 "" (.autoInt uint16AI)).type.raw_to_internal [1, 0] 1 LITTLE).map
        (fun v => (some (plainField "speed" 1 "" (.autoInt uint16AI)).name,
          withUnit (plainField "speed" 1 "" (.autoInt uint16AI)).units v)) :=
  c10_values_strings_or_null.1 (plainField "speed" 1 "" (.autoInt uint16AI)) [1, 0] 1
    LITTLE none rfl

end Choochoo
